import Mathlib

/-!
# Verification of `redirect.py` (Curio-Digital/redirect-checker)

A shallow embedding of the redirect-checker's core: the classifier
`decide_page_exists_value`, the prober `fetch_status` (network effects
modelled by an explicit outcome oracle), the check-mode scheduler's row
selection and result collection, the sitemap URL finalisation step, the
staging-URL derivation (`ensure_https` / `build_staging_url`, on top of a
model of CPython's `urllib.parse.urlparse`), the check-mode row mutation,
and the generation-mode row seeding.

Machine strings are Lean `String`s; Python string helpers (`strip`,
`lower`, substring containment) are modelled character-exactly for the
ASCII range on the underlying character lists. HTTP status codes are
`Option Int` (`none` models Python `None`).
-/

namespace Redirect

/-- Python `str.isspace` characters in the ASCII range (the characters
`str.strip()` removes): space, tab, newline, carriage return, vertical
tab, form feed. -/
def pyIsSpace (c : Char) : Bool :=
  c = ' ' || c = '\t' || c = '\n' || c = '\x0d' || c = '\x0b' || c = '\x0c'

/-- Python `str.strip()` on a character list: drop whitespace from both ends. -/
def pyStripList (l : List Char) : List Char :=
  ((l.dropWhile pyIsSpace).reverse.dropWhile pyIsSpace).reverse

/-- Python `str.strip()`. -/
def pyStrip (s : String) : String :=
  ⟨pyStripList s.data⟩

/-- Python `str.lower()` (ASCII lowercasing). -/
def pyLower (s : String) : String :=
  ⟨s.data.map Char.toLower⟩

/-- Does `tok` occur at the head of `hay`? (Helper for substring search.) -/
def tokHere : List Char → List Char → Bool
  | [], _ => true
  | _ :: _, [] => false
  | c :: cs, d :: ds => c = d && tokHere cs ds

/-- Does `tok` occur anywhere in `hay`? Models Python `tok in hay`
(the empty token occurs in every string). -/
def tokIn (tok : List Char) : List Char → Bool
  | [] => tok.isEmpty
  | d :: ds => tokHere tok (d :: ds) || tokIn tok ds

/-- Python substring containment `tok in hay` on strings. -/
def strContains (hay tok : String) : Bool :=
  tokIn tok.data hay.data

/-- `CrawlResult` dataclass from `redirect.py`: a probed URL together with
either a status code (the Resolved variant) or no code and an error string
(the Unresolved variant). -/
structure CrawlResult where
  url : String
  status_code : Option Int
  error : Option String
deriving Repr, DecidableEq

/-- `decide_page_exists_value` from `redirect.py` lines 110-142, embedded
statement by statement: normalise the three text fields, compute the two
substring-test booleans, then branch on the status code. -/
def decide_page_exists_value (status_code : Option Int)
    (scope_value status_value url_matches_value : String) : String :=
  let scope_normalized := pyLower (pyStrip scope_value)
  let status_normalized := pyLower (pyStrip status_value)
  let url_matches_normalized := pyLower (pyStrip url_matches_value)
  let in_scope_flag :=
    strContains scope_normalized "in scope" ||
    (strContains status_normalized "in scope" ||
     strContains status_normalized "added to initial scope" ||
     strContains status_normalized "needed for launch")
  let not_needed_flag :=
    strContains scope_normalized "not in scope" ||
    strContains status_normalized "not needed"
  match status_code with
  | none => if not_needed_flag then "No" else if in_scope_flag then "404" else "No"
  | some code =>
    if 200 ≤ code ∧ code < 400 then "Yes"
    else if code = 404 then
      if url_matches_normalized = "yes" ∨ url_matches_normalized = "y" ∨
          url_matches_normalized = "true" then "No"
      else if not_needed_flag then "No" else if in_scope_flag then "404" else "No"
    else "No"

/-- The spec's `is_in_scope` boolean of the decision policy: the normalised
scope text contains "in scope", or the normalised status text contains one
of "in scope", "added to initial scope", "needed for launch". -/
def is_in_scope (scope_text status_text : String) : Bool :=
  strContains (pyLower (pyStrip scope_text)) "in scope" ||
  strContains (pyLower (pyStrip status_text)) "in scope" ||
  strContains (pyLower (pyStrip status_text)) "added to initial scope" ||
  strContains (pyLower (pyStrip status_text)) "needed for launch"

/-- The spec's `not_needed` boolean of the decision policy: the normalised
scope text contains "not in scope", or the normalised status text contains
"not needed". -/
def not_needed (scope_text status_text : String) : Bool :=
  strContains (pyLower (pyStrip scope_text)) "not in scope" ||
  strContains (pyLower (pyStrip status_text)) "not needed"

/-- C1: a probe outcome `Resolved{code}` with `200 <= code < 400` classifies
as `Exists` ("Yes"), whatever the scope, status and url-matches texts are. -/
theorem resolved_2xx_3xx_always_yes (code : Int)
    (scope_value status_value url_matches_value : String)
    (h1 : 200 ≤ code) (h2 : code < 400) :
    decide_page_exists_value (some code) scope_value status_value url_matches_value
      = "Yes" := by
  simp [decide_page_exists_value, h1, h2]

/-- Witness for C1 at code 301. -/
theorem resolved_2xx_3xx_always_yes_witness :
    decide_page_exists_value (some 301) "Not in Scope" "Not needed" "no" = "Yes" :=
  resolved_2xx_3xx_always_yes 301 "Not in Scope" "Not needed" "no"
    (by norm_num) (by norm_num)

/-- C2: a probe outcome `Resolved{404}` whose url-matches text normalises to
"yes", "y" or "true" classifies as `Missing` ("No"), whatever the scope and
status texts are. -/
theorem resolved_404_url_match_no (scope_value status_value url_matches_value : String)
    (h : pyLower (pyStrip url_matches_value) = "yes" ∨
         pyLower (pyStrip url_matches_value) = "y" ∨
         pyLower (pyStrip url_matches_value) = "true") :
    decide_page_exists_value (some 404) scope_value status_value url_matches_value
      = "No" := by
  have h1 : ¬ ((200 : Int) ≤ 404 ∧ (404 : Int) < 400) := by norm_num
  simp only [decide_page_exists_value]
  rw [if_neg h1]
  simp only [if_true]
  rw [if_pos h]

/-- Witness for C2: scope and status both signal "flag for review", yet the
url-matches override gives "No". -/
theorem resolved_404_url_match_no_witness :
    decide_page_exists_value (some 404) "In Scope" "Needed for Launch" " YES " = "No" :=
  resolved_404_url_match_no "In Scope" "Needed for Launch" " YES "
    (Or.inl (by decide))

/-- C3: with no status code (absent or unresolved probe), classification is
"No" when `not_needed` holds, else "404" when `is_in_scope` holds, else
"No"; in particular scope text "not in scope" makes both booleans true and
the `not_needed` branch wins, giving "No". -/
theorem unresolved_policy :
    (∀ scope_text status_text url_matches_text : String,
      decide_page_exists_value none scope_text status_text url_matches_text =
        if not_needed scope_text status_text then "No"
        else if is_in_scope scope_text status_text then "404" else "No")
    ∧ not_needed "not in scope" "" = true
    ∧ is_in_scope "not in scope" "" = true
    ∧ decide_page_exists_value none "not in scope" "" "" = "No" := by
  refine ⟨?_, by decide, by decide, by decide⟩
  intro scope_text status_text url_matches_text
  simp [decide_page_exists_value, not_needed, is_in_scope, Bool.or_assoc]

/-- C4: a probe outcome `Resolved{code}` with `code` outside `[200,400)` and
different from 404 classifies as `Missing` ("No"), whatever the scope,
status and url-matches texts are. -/
theorem resolved_other_code_no (code : Int)
    (scope_value status_value url_matches_value : String)
    (h1 : ¬ (200 ≤ code ∧ code < 400)) (h2 : code ≠ 404) :
    decide_page_exists_value (some code) scope_value status_value url_matches_value
      = "No" := by
  simp only [decide_page_exists_value]
  rw [if_neg h1, if_neg h2]

/-- Witness for C4 at code 500 with in-scope metadata. -/
theorem resolved_other_code_no_witness :
    decide_page_exists_value (some 500) "In Scope" "Needed for Launch" "yes" = "No" :=
  resolved_other_code_no 500 "In Scope" "Needed for Launch" "yes"
    (by norm_num) (by norm_num)

/-- The outcome of the single `urlopen` call inside `fetch_status`, as an
explicit oracle value: the call either returns a response object (with a
`status` attribute), raises `HTTPError` (carrying a status code), raises
`URLError`, or raises some other exception. Each constructor corresponds to
one handler of `fetch_status`'s try/except, so the embedding is total: no
outcome escapes the probe boundary. -/
inductive NetOutcome where
  | response (status : Int)
  | httpError (code : Int) (msg : String)
  | urlError (msg : String)
  | otherError (msg : String)
deriving Repr, DecidableEq

/-- `fetch_status` from `redirect.py` lines 145-162: an empty URL yields the
`empty-url` result without consulting the network oracle; otherwise the
oracle's outcome is normalised into a `CrawlResult` exactly as the
try/except handlers do (note `HTTPError` still carries a status code). -/
def fetch_status (url : String) (net : NetOutcome) : CrawlResult :=
  if url = "" then { url := url, status_code := none, error := some "empty-url" }
  else
    match net with
    | .response s => { url := url, status_code := some s, error := none }
    | .httpError c m => { url := url, status_code := some c, error := some m }
    | .urlError m => { url := url, status_code := none, error := some m }
    | .otherError m => { url := url, status_code := none, error := some m }

/-- C5: every probe ends in exactly one of the two outcome variants — a
status code (Resolved) or no code together with a diagnostic string
(Unresolved) — and the empty URL yields `Unresolved{"empty-url"}`
independently of the network oracle (no network I/O is performed). -/
theorem fetch_status_two_outcomes :
    (∀ (url : String) (net : NetOutcome),
      (∃ c, (fetch_status url net).status_code = some c) ∨
      ((fetch_status url net).status_code = none ∧
       ∃ r, (fetch_status url net).error = some r))
    ∧ (∀ net : NetOutcome,
      fetch_status "" net = { url := "", status_code := none, error := some "empty-url" }) := by
  refine ⟨?_, fun net => by simp [fetch_status]⟩
  intro url net
  by_cases h : url = ""
  · exact Or.inr (by simp [fetch_status, h])
  · cases net with
    | response s => exact Or.inl ⟨s, by simp [fetch_status, h]⟩
    | httpError c m => exact Or.inl ⟨c, by simp [fetch_status, h]⟩
    | urlError m => exact Or.inr (by simp [fetch_status, h])
    | otherError m => exact Or.inr (by simp [fetch_status, h])

/-- A CSV row as `csv.DictReader` yields it: an ordered association list
from field name to string value (a Python dict preserves insertion order
and has unique keys). -/
abbrev Row : Type := List (String × String)

/-- Python `row.get(k)`: the value at key `k`, if present. -/
def Row.get (row : Row) (k : String) : Option String :=
  (row.find? (fun p => p.1 == k)).map Prod.snd

/-- Python `row.get(k, "")` (and `row.get(k) or ""` for string values). -/
def Row.getD (row : Row) (k : String) : String :=
  (Row.get row k).getD ""

/-- The trimmed target URL of a row (`redirect.py` line 367):
`(row.get("Theoretical Staging Link") or "").strip()`. -/
def target_url (row : Row) : String :=
  pyStrip (Row.getD row "Theoretical Staging Link")

/-- Does the row have a non-empty trimmed target URL (line 368's `if url:`)? -/
def has_target (row : Row) : Bool :=
  target_url row ≠ ""

/-- The `urls_to_check` selection loop of `main` (lines 365-369), with the
running `enumerate` index made explicit. -/
def urls_to_check_from (i : Nat) : List Row → List (Nat × String)
  | [] => []
  | row :: rest =>
    let url := target_url row
    if url = "" then urls_to_check_from (i + 1) rest
    else (i, url) :: urls_to_check_from (i + 1) rest

/-- `urls_to_check` from `main`: the (index, trimmed URL) pairs of the rows
whose target URL is non-empty after trimming. -/
def urls_to_check (rows : List Row) : List (Nat × String) :=
  urls_to_check_from 0 rows

/-- The scheduler's `index_to_result` mapping (lines 371-390): one
`fetch_status` outcome per dispatched (index, url) pair, keyed by the
original row index. Each future writes only its own key, and `main` reads
the mapping only after the executor has drained, so the completion order of
`as_completed` does not affect the final mapping; the network oracle `net`
supplies each dispatched probe's outcome. -/
def index_to_result (rows : List Row) (net : Nat → String → NetOutcome) :
    List (Nat × CrawlResult) :=
  (urls_to_check rows).map (fun p => (p.1, fetch_status p.2 (net p.1 p.2)))

theorem urls_to_check_from_length (i : Nat) (rows : List Row) :
    (urls_to_check_from i rows).length = rows.countP has_target := by
  induction rows generalizing i with
  | nil => simp [urls_to_check_from]
  | cons row rest ih =>
    by_cases h : target_url row = ""
    · simp [urls_to_check_from, h, List.countP_cons, has_target, ih]
    · simp [urls_to_check_from, h, List.countP_cons, has_target, ih]

theorem urls_to_check_from_ge (i : Nat) (rows : List Row) (j : Nat) (u : String)
    (hmem : (j, u) ∈ urls_to_check_from i rows) : i ≤ j := by
  induction rows generalizing i with
  | nil => simp [urls_to_check_from] at hmem
  | cons row rest ih =>
    by_cases h : target_url row = ""
    · simp only [urls_to_check_from, if_pos h] at hmem
      exact Nat.le_of_succ_le (ih (i + 1) hmem)
    · simp only [urls_to_check_from, if_neg h, List.mem_cons] at hmem
      rcases hmem with heq | hmem
      · simp only [Prod.mk.injEq] at heq
        omega
      · exact Nat.le_of_succ_le (ih (i + 1) hmem)

theorem urls_to_check_from_pairwise (i : Nat) (rows : List Row) :
    ((urls_to_check_from i rows).map Prod.fst).Pairwise (· < ·) := by
  induction rows generalizing i with
  | nil => simp [urls_to_check_from]
  | cons row rest ih =>
    by_cases h : target_url row = ""
    · simpa [urls_to_check_from, h] using ih (i + 1)
    · simp only [urls_to_check_from, if_neg h, List.map_cons, List.pairwise_cons]
      refine ⟨?_, ih (i + 1)⟩
      intro j hj
      simp only [List.mem_map] at hj
      obtain ⟨p, hp, hpe⟩ := hj
      have := urls_to_check_from_ge (i + 1) rest p.1 p.2 (by simpa using hp)
      omega

theorem urls_to_check_from_mem (i : Nat) (rows : List Row) (j : Nat) :
    (∃ u, (j, u) ∈ urls_to_check_from i rows) ↔
      (∃ k, k < rows.length ∧ j = i + k ∧ has_target (rows.getD k []) = true) := by
  induction rows generalizing i with
  | nil => simp [urls_to_check_from]
  | cons row rest ih =>
    by_cases h : target_url row = ""
    · simp only [urls_to_check_from, if_pos h]
      rw [ih (i + 1)]
      constructor
      · rintro ⟨k, hk, hj, ht⟩
        exact ⟨k + 1, by simpa using hk, by omega, by simpa using ht⟩
      · rintro ⟨k, hk, hj, ht⟩
        match k with
        | 0 => simp only [List.getD_cons_zero] at ht; simp [has_target, h] at ht
        | k + 1 =>
          exact ⟨k, by simpa using hk, by omega, by simpa using ht⟩
    · simp only [urls_to_check_from, if_neg h, List.mem_cons]
      constructor
      · rintro ⟨u, heq | hmem⟩
        · refine ⟨0, by simp, by simpa using congrArg Prod.fst heq, ?_⟩
          simp [has_target, h]
        · obtain ⟨k, hk, hj, ht⟩ := (ih (i + 1)).mp ⟨u, hmem⟩
          exact ⟨k + 1, by simpa using hk, by omega, by simpa using ht⟩
      · rintro ⟨k, hk, hj, ht⟩
        match k with
        | 0 =>
          refine ⟨target_url row, Or.inl ?_⟩
          have hji : j = i := by omega
          rw [hji]
        | k + 1 =>
          obtain ⟨u, hmem⟩ := (ih (i + 1)).mpr ⟨k, by simpa using hk, by omega, by simpa using ht⟩
          exact ⟨u, Or.inr hmem⟩

theorem index_to_result_keys (rows : List Row) (net : Nat → String → NetOutcome) :
    (index_to_result rows net).map Prod.fst = (urls_to_check rows).map Prod.fst := by
  simp only [index_to_result, List.map_map]
  rfl

/-- C6: scheduler completeness. For any row list and any network oracle, the
keys of the result mapping are strictly increasing (hence pairwise
distinct, so each dispatched index receives exactly one outcome), the
mapping has exactly as many entries as there are rows with a non-empty
trimmed target URL, and an index has an entry exactly when it is the
position (in `[0, N)`) of a row with a non-empty trimmed target URL — in
particular rows with an empty or whitespace-only target URL are never
dispatched to the prober. -/
theorem scheduler_completeness (rows : List Row) (net : Nat → String → NetOutcome) :
    ((index_to_result rows net).map Prod.fst).Pairwise (· < ·)
    ∧ (index_to_result rows net).length = rows.countP has_target
    ∧ (∀ j, (∃ r, (j, r) ∈ index_to_result rows net) ↔
        (j < rows.length ∧ has_target (rows.getD j []) = true)) := by
  refine ⟨?_, ?_, ?_⟩
  · rw [index_to_result_keys]
    exact urls_to_check_from_pairwise 0 rows
  · rw [index_to_result, List.length_map]
    exact urls_to_check_from_length 0 rows
  · intro j
    have hm : (∃ r, (j, r) ∈ index_to_result rows net) ↔
        (∃ u, (j, u) ∈ urls_to_check rows) := by
      simp only [index_to_result, List.mem_map]
      constructor
      · rintro ⟨r, ⟨a, b⟩, hp, hpe⟩
        have ha : a = j := congrArg Prod.fst hpe
        exact ⟨b, ha ▸ hp⟩
      · rintro ⟨u, hu⟩
        exact ⟨fetch_status u (net j u), (j, u), hu, rfl⟩
    rw [hm, urls_to_check, urls_to_check_from_mem 0 rows j]
    constructor
    · rintro ⟨k, hk, hj, ht⟩
      exact ⟨by omega, by simpa [hj] using ht⟩
    · rintro ⟨hj, ht⟩
      exact ⟨j, hj, by omega, ht⟩

/-- The finalisation step of `fetch_sitemap_urls` (`redirect.py` line 233):
`sorted(set(urls))` applied to the multiset of URLs collected from the
sitemap document(s). The fetching and XML traversal that produce the
collected list are network I/O; the collected URLs are the parameter.
Python's `sorted` on strings is lexicographic by code point, which is
`String`'s linear order. -/
def fetch_sitemap_urls (collected : List String) : List String :=
  List.insertionSort (· ≤ ·) collected.dedup

theorem fetch_sitemap_urls_perm (collected : List String) :
    List.Perm (fetch_sitemap_urls collected) collected.dedup :=
  List.perm_insertionSort _ _

theorem fetch_sitemap_urls_nodup (collected : List String) :
    (fetch_sitemap_urls collected).Nodup :=
  ((fetch_sitemap_urls_perm collected).nodup_iff).mpr (List.nodup_dedup collected)

theorem fetch_sitemap_urls_mem (collected : List String) (u : String) :
    u ∈ fetch_sitemap_urls collected ↔ u ∈ collected := by
  rw [(fetch_sitemap_urls_perm collected).mem_iff, List.mem_dedup]

/-- C7: the sitemap resolver's final URL list is strictly ascending (so
deduplicated and sorted), contains each collected URL exactly once and
nothing else, and is determined by the set of collected URLs alone (any
collection with the same members finalises to the same list). -/
theorem sitemap_result_sorted_dedup (collected : List String) :
    (fetch_sitemap_urls collected).Sorted (· < ·)
    ∧ (∀ u, (fetch_sitemap_urls collected).count u = if u ∈ collected then 1 else 0)
    ∧ (∀ other : List String, (∀ u, u ∈ other ↔ u ∈ collected) →
        fetch_sitemap_urls other = fetch_sitemap_urls collected) := by
  refine ⟨?_, ?_, ?_⟩
  · exact (List.sorted_insertionSort _ _).lt_of_le (fetch_sitemap_urls_nodup collected)
  · intro u
    by_cases hu : u ∈ collected
    · rw [if_pos hu]
      exact List.count_eq_one_of_mem (fetch_sitemap_urls_nodup collected)
        ((fetch_sitemap_urls_mem collected u).mpr hu)
    · rw [if_neg hu]
      exact List.count_eq_zero_of_not_mem
        (fun hc => hu ((fetch_sitemap_urls_mem collected u).mp hc))
  · intro other hext
    refine List.eq_of_perm_of_sorted ?_ (List.sorted_insertionSort _ _)
      (List.sorted_insertionSort _ _)
    refine (List.perm_ext_iff_of_nodup (fetch_sitemap_urls_nodup other)
      (fetch_sitemap_urls_nodup collected)).mpr ?_
    intro u
    rw [fetch_sitemap_urls_mem, fetch_sitemap_urls_mem]
    exact hext u

/-- Python dict assignment `row[k] = v` on an ordered mapping: when the key
is present its value is replaced in place (`csv.DictReader` rows have
unique keys, so the single matching pair is rewritten); when absent the
pair is appended. -/
def Row.setItem (row : Row) (k v : String) : Row :=
  if (row.find? (fun p => p.1 == k)).isSome then
    row.map (fun p => if p.1 == k then (k, v) else p)
  else row ++ [(k, v)]

/-- The per-row mutation of `main`'s classification loop (lines 404-414):
read `Scope`, `Status` and `URL Matches` with default `""`, classify, and
assign the result to the `Page Exists?` field. -/
def classify_row (row : Row) (status_code : Option Int) : Row :=
  Row.setItem row "Page Exists?"
    (decide_page_exists_value status_code (Row.getD row "Scope") (Row.getD row "Status")
      (Row.getD row "URL Matches"))

theorem row_find_cons_pos (p : String × String → Bool) (q : String × String)
    (rest : Row) (h : p q = true) :
    List.find? p (q :: rest) = some q := by
  simp [List.find?, h]

theorem row_find_cons_neg (p : String × String → Bool) (q : String × String)
    (rest : Row) (h : p q = false) :
    List.find? p (q :: rest) = List.find? p rest := by
  simp [List.find?, h]

theorem find_map_replace (k v k' : String) (hne : k' ≠ k) (row : Row) :
    (row.map (fun p => if p.1 == k then (k, v) else p)).find? (fun p => p.1 == k')
      = row.find? (fun p => p.1 == k') := by
  induction row with
  | nil => rfl
  | cons q rest ih =>
    rw [List.map_cons]
    by_cases hq : (q.1 == k) = true
    · have hqk : q.1 = k := by simpa using hq
      rw [if_pos hq]
      have h1 : ((fun p : String × String => p.1 == k') (k, v)) = false := by
        simp only [beq_eq_false_iff_ne]
        exact fun h => hne h.symm
      have h2 : ((fun p : String × String => p.1 == k') q) = false := by
        simp only [beq_eq_false_iff_ne, hqk]
        exact fun h => hne h.symm
      rw [row_find_cons_neg _ _ _ h1, row_find_cons_neg _ _ _ h2, ih]
    · rw [if_neg hq]
      by_cases hk' : ((fun p : String × String => p.1 == k') q) = true
      · rw [row_find_cons_pos _ _ _ hk', row_find_cons_pos _ _ _ hk']
      · have hk'f : ((fun p : String × String => p.1 == k') q) = false :=
          Bool.eq_false_iff.mpr hk'
        rw [row_find_cons_neg _ _ _ hk'f, row_find_cons_neg _ _ _ hk'f, ih]

theorem find_append_single (k v k' : String) (hne : k' ≠ k) (row : Row) :
    (row ++ [(k, v)]).find? (fun p => p.1 == k') = row.find? (fun p => p.1 == k') := by
  induction row with
  | nil =>
    have h1 : ((fun p : String × String => p.1 == k') (k, v)) = false := by
      simp only [beq_eq_false_iff_ne]
      exact fun h => hne h.symm
    simp only [List.nil_append]
    rw [row_find_cons_neg _ _ _ h1]
  | cons q rest ih =>
    rw [List.cons_append]
    by_cases hk' : ((fun p : String × String => p.1 == k') q) = true
    · rw [row_find_cons_pos _ _ _ hk', row_find_cons_pos _ _ _ hk']
    · have hk'f : ((fun p : String × String => p.1 == k') q) = false :=
        Bool.eq_false_iff.mpr hk'
      rw [row_find_cons_neg _ _ _ hk'f, row_find_cons_neg _ _ _ hk'f, ih]

theorem setItem_get_ne (row : Row) (k v k' : String) (hne : k' ≠ k) :
    Row.get (Row.setItem row k v) k' = Row.get row k' := by
  unfold Row.setItem Row.get
  by_cases hfind : (row.find? (fun p => p.1 == k)).isSome
  · rw [if_pos hfind, find_map_replace k v k' hne]
  · rw [if_neg hfind, find_append_single k v k' hne]

theorem setItem_keys_of_mem (row : Row) (k v : String)
    (hmem : k ∈ row.map Prod.fst) :
    (Row.setItem row k v).map Prod.fst = row.map Prod.fst := by
  unfold Row.setItem
  have hfind : (row.find? (fun p => p.1 == k)).isSome := by
    obtain ⟨p, hp, hpe⟩ := List.mem_map.mp hmem
    exact List.find?_isSome.mpr ⟨p, hp, by simp [hpe]⟩
  rw [if_pos hfind, List.map_map]
  refine List.map_congr_left ?_
  intro p _
  by_cases hq : p.1 == k
  · have : p.1 = k := by simpa using hq
    simp [Function.comp, hq, this]
  · simp [Function.comp, hq]

/-- C9: frame property of the check-mode row mutation. When the row has a
`Page Exists?` field (which `main` has already checked is a column of the
input), classifying the row preserves the list of field names — their set
and order — and the value of every field other than `Page Exists?`; in
particular the record the CSV writer emits for any header agrees with the
source row on every column other than the classification column. -/
theorem classify_row_frame (row : Row) (status_code : Option Int)
    (hmem : "Page Exists?" ∈ row.map Prod.fst) :
    (classify_row row status_code).map Prod.fst = row.map Prod.fst
    ∧ (∀ k, k ≠ "Page Exists?" →
        Row.get (classify_row row status_code) k = Row.get row k)
    ∧ (∀ fieldnames : List String,
        (fieldnames.filter (fun k => k ≠ "Page Exists?")).map
            (Row.getD (classify_row row status_code))
          = (fieldnames.filter (fun k => k ≠ "Page Exists?")).map (Row.getD row)) := by
  have hget : ∀ k, k ≠ "Page Exists?" →
      Row.get (classify_row row status_code) k = Row.get row k := by
    intro k hk
    exact setItem_get_ne row "Page Exists?" _ k hk
  refine ⟨setItem_keys_of_mem row "Page Exists?" _ hmem, hget, ?_⟩
  intro fieldnames
  refine List.map_congr_left ?_
  intro k hk
  have hkne : k ≠ "Page Exists?" := by
    have := List.mem_filter.mp hk
    simpa using this.2
  unfold Row.getD
  rw [hget k hkne]

/-- Witness for C9 at a concrete five-column row probed with status 200. -/
theorem classify_row_frame_witness :
    ((classify_row
        [("Theoretical Staging Link", "https://s.example/x"), ("Page Exists?", ""),
         ("Scope", "In Scope"), ("Status", ""), ("URL Matches", "")] (some 200)).map Prod.fst
      = ([("Theoretical Staging Link", "https://s.example/x"), ("Page Exists?", ""),
         ("Scope", "In Scope"), ("Status", ""), ("URL Matches", "")] : Row).map Prod.fst)
    ∧ (∀ k, k ≠ "Page Exists?" →
        Row.get (classify_row
          [("Theoretical Staging Link", "https://s.example/x"), ("Page Exists?", ""),
           ("Scope", "In Scope"), ("Status", ""), ("URL Matches", "")] (some 200)) k
          = Row.get
          [("Theoretical Staging Link", "https://s.example/x"), ("Page Exists?", ""),
           ("Scope", "In Scope"), ("Status", ""), ("URL Matches", "")] k)
    ∧ (∀ fieldnames : List String,
        (fieldnames.filter (fun k => k ≠ "Page Exists?")).map
            (Row.getD (classify_row
              [("Theoretical Staging Link", "https://s.example/x"), ("Page Exists?", ""),
               ("Scope", "In Scope"), ("Status", ""), ("URL Matches", "")] (some 200)))
          = (fieldnames.filter (fun k => k ≠ "Page Exists?")).map
            (Row.getD
              [("Theoretical Staging Link", "https://s.example/x"), ("Page Exists?", ""),
               ("Scope", "In Scope"), ("Status", ""), ("URL Matches", "")])) :=
  classify_row_frame
    [("Theoretical Staging Link", "https://s.example/x"), ("Page Exists?", ""),
     ("Scope", "In Scope"), ("Status", ""), ("URL Matches", "")] (some 200) (by decide)

/-- C0 control characters and space: what CPython's `urlsplit` strips from
the front of a URL before parsing. -/
def c0ControlOrSpace (c : Char) : Bool :=
  c ≤ ' '

/-- Tab, carriage return and line feed: CPython's `urlsplit` removes these
everywhere in the URL before parsing. -/
def removedUrlByte (c : Char) : Bool :=
  c = '\t' || c = '\x0d' || c = '\n'

/-- The preprocessing CPython's `urlsplit` applies to its input. -/
def preprocessUrl (l : List Char) : List Char :=
  (l.dropWhile c0ControlOrSpace).filter (fun c => !removedUrlByte c)

/-- CPython's `scheme_chars`: letters, digits, `+`, `-`, `.`. -/
def scheme_char (c : Char) : Bool :=
  c.isAlphanum || c = '+' || c = '-' || c = '.'

/-- Split a character list at the first character satisfying `p`:
`some (before, after)` with the matching character dropped, or `none` when
no character matches. Models Python `s.split(sep, 1)` and `s.find`. -/
def splitAtFirst (p : Char → Bool) : List Char → Option (List Char × List Char)
  | [] => none
  | c :: rest =>
    if p c then some ([], rest)
    else match splitAtFirst p rest with
      | none => none
      | some (pre, post) => some (c :: pre, post)

/-- Scheme recognition of CPython's `urlsplit`: the characters before the
first `:` form a scheme when they are nonempty, start with an ASCII letter
and all lie in `scheme_chars`; the scheme is lowercased. -/
def splitScheme (l : List Char) : List Char × List Char :=
  match splitAtFirst (fun c => c = ':') l with
  | none => ([], l)
  | some (pre, post) =>
    match pre with
    | [] => ([], l)
    | c :: _ =>
      if c.isAlpha && pre.all scheme_char then (pre.map Char.toLower, post)
      else ([], l)

/-- The characters that end a netloc in CPython's `_splitnetloc`. -/
def netDelim (c : Char) : Bool :=
  c = '/' || c = '?' || c = '#'

/-- Netloc extraction of CPython's `urlsplit`: only when the remainder
starts with `//`; the netloc runs to the next `/`, `?` or `#`. -/
def splitNetloc (l : List Char) : List Char × List Char :=
  match l with
  | '/' :: '/' :: rest =>
    (rest.takeWhile (fun c => !netDelim c), rest.dropWhile (fun c => !netDelim c))
  | _ => ([], l)

/-- Fragment split of `urlsplit`: `url.split('#', 1)` when `#` occurs. -/
def splitFragment (l : List Char) : List Char × List Char :=
  match splitAtFirst (fun c => c = '#') l with
  | none => (l, [])
  | some (pre, post) => (pre, post)

/-- Query split of `urlsplit`: `url.split('?', 1)` when `?` occurs. -/
def splitQuery (l : List Char) : List Char × List Char :=
  match splitAtFirst (fun c => c = '?') l with
  | none => (l, [])
  | some (pre, post) => (pre, post)

/-- CPython's `uses_params` scheme list. -/
def uses_params : List String :=
  ["", "ftp", "hdl", "prospero", "http", "imap", "https", "shttp", "rtsp",
   "rtspu", "sip", "sips", "mms", "sftp", "tel"]

/-- The last segment of a path: everything after the last `/` (the whole
path when it has no `/`). This is the region CPython's `_splitparams`
searches for `;` (`url.find(';', url.rfind('/'))`). -/
def lastSeg (p : List Char) : List Char :=
  (p.reverse.takeWhile (fun c => c ≠ '/')).reverse

/-- CPython's `_splitparams`: split the path at the first `;` of its last
segment (the part after the last `/`, or the whole path when it has no
`/`). -/
def splitParams (p : List Char) : List Char × List Char :=
  if ('/' : Char) ∈ p then
    match splitAtFirst (fun c => c = ';') (lastSeg p) with
    | none => (p, [])
    | some (a, b) => (p.take (p.length - (lastSeg p).length) ++ a, b)
  else
    match splitAtFirst (fun c => c = ';') p with
    | none => (p, [])
    | some (a, b) => (a, b)

/-- The six named components `urllib.parse.urlparse` returns. -/
structure ParseResult where
  scheme : String
  netloc : String
  path : String
  params : String
  query : String
  fragment : String
deriving Repr, DecidableEq

/-- Model of CPython's `urllib.parse.urlparse` (the library call
`redirect.py` makes in `ensure_https` and `build_staging_url`): strip and
clean the input, split off scheme, netloc, fragment, query in that order,
then split params off the path when the scheme uses them. The model is
checked against CPython's output on representative URLs below. CPython
additionally raises `ValueError` where this total model returns
components: on netlocs with unbalanced or bracketed `[`/`]` and on
non-ASCII netlocs whose NFKC normalisation introduces a delimiter; so
theorems quantifying over URLs carry hypotheses keeping every parsed URL
bracket-free with an ASCII netloc, the domain on which the model is
faithful. -/
def urlparse (url : String) : ParseResult :=
  let l := preprocessUrl url.data
  let s1 := splitScheme l
  let s2 := splitNetloc s1.2
  let s3 := splitFragment s2.2
  let s4 := splitQuery s3.1
  let scheme : String := ⟨s1.1⟩
  let pp :=
    if scheme ∈ uses_params ∧ (';' : Char) ∈ s4.1 then splitParams s4.1
    else (s4.1, [])
  { scheme := scheme, netloc := ⟨s2.1⟩, path := ⟨pp.1⟩,
    params := ⟨pp.2⟩, query := ⟨s4.2⟩, fragment := ⟨s3.2⟩ }

/-- `ensure_https` from `redirect.py` lines 174-180: prepend `https://`
when the URL parses with no scheme. -/
def ensure_https (url : String) : String :=
  if url = "" then url
  else if (urlparse url).scheme = "" then "https://" ++ url
  else url

/-- Python `s.rstrip("/")`. -/
def pyRstripSlashes (s : String) : String :=
  ⟨(s.data.reverse.dropWhile (fun c => c = '/')).reverse⟩

/-- `build_staging_url` from `redirect.py` lines 183-189: trim the staging
host, force a scheme onto the live URL, then rebuild
`https://{host}{path or "/"}{"?" + query if query else ""}`. -/
def build_staging_url (live_url : String) (staging_base_host : String) : String :=
  let host := pyRstripSlashes (pyStrip staging_base_host)
  let live := ensure_https live_url
  let parsed := urlparse live
  let path : String := if parsed.path = "" then "/" else parsed.path
  let query : String := if parsed.query = "" then "" else "?" ++ parsed.query
  "https://" ++ host ++ path ++ query

/-- Sanity check of the `urlparse` model against CPython 3 outputs. -/
theorem urlparse_model_checks :
    urlparse "https://example.com" =
      { scheme := "https", netloc := "example.com", path := "", params := "",
        query := "", fragment := "" }
    ∧ urlparse "http://a.b/c/d?x=1&y=2" =
      { scheme := "http", netloc := "a.b", path := "/c/d", params := "",
        query := "x=1&y=2", fragment := "" }
    ∧ urlparse "example.com/path" =
      { scheme := "", netloc := "", path := "example.com/path", params := "",
        query := "", fragment := "" }
    ∧ urlparse "https://h/a;p?q#f" =
      { scheme := "https", netloc := "h", path := "/a", params := "p",
        query := "q", fragment := "f" }
    ∧ urlparse "HTTPS://Ex.COM/Path" =
      { scheme := "https", netloc := "Ex.COM", path := "/Path", params := "",
        query := "", fragment := "" }
    ∧ urlparse "http://h:8080/p?q=1?z" =
      { scheme := "http", netloc := "h:8080", path := "/p", params := "",
        query := "q=1?z", fragment := "" } := by
  refine ⟨by decide, by decide, by decide, by decide, by decide, by decide⟩

/-- Printable ASCII characters: `urlsplit`'s preprocessing leaves a string
of plain characters unchanged. -/
def plainChar (c : Char) : Bool :=
  !c0ControlOrSpace c && !removedUrlByte c && c.toNat < 127

/-- Characters allowed in a staging host for the round-trip theorem: plain,
and none of the netloc delimiters `/`, `?`, `#` nor the brackets on which
CPython's parser raises. -/
def hostChar (c : Char) : Bool :=
  plainChar c && c ≠ '/' && c ≠ '?' && c ≠ '#' && c ≠ '[' && c ≠ ']'

/-- Characters a parsed path can contain: anything the preprocessing keeps
(no tab/CR/LF) except the query and fragment delimiters `?` and `#` — a
path produced by `urlparse` never contains any of these five, since the
preprocessing removed the first three and the query/fragment splits
removed the other two. Spaces and non-ASCII characters are allowed. -/
def pathSafeChar (c : Char) : Bool :=
  !removedUrlByte c && c ≠ '?' && c ≠ '#'

/-- Characters a parsed query string can contain: anything the
preprocessing keeps (no tab/CR/LF) except the fragment delimiter `#`. -/
def queryChar (c : Char) : Bool :=
  !removedUrlByte c && c ≠ '#'

theorem splitAtFirst_of_all_not (p : Char → Bool) (l : List Char)
    (h : l.all (fun c => !p c) = true) : splitAtFirst p l = none := by
  induction l with
  | nil => rfl
  | cons c rest ih =>
    simp only [List.all_cons, Bool.and_eq_true, Bool.not_eq_true'] at h
    simp [splitAtFirst, h.1, ih h.2]

theorem splitAtFirst_append (p : Char → Bool) (l₁ : List Char) (c : Char) (l₂ : List Char)
    (h : l₁.all (fun x => !p x) = true) (hc : p c = true) :
    splitAtFirst p (l₁ ++ c :: l₂) = some (l₁, l₂) := by
  induction l₁ with
  | nil => simp [splitAtFirst, hc]
  | cons a rest ih =>
    simp only [List.all_cons, Bool.and_eq_true, Bool.not_eq_true'] at h
    simp [splitAtFirst, h.1, ih h.2]

theorem takeWhile_append_all (q : Char → Bool) (l₁ l₂ : List Char)
    (h : l₁.all q = true) :
    (l₁ ++ l₂).takeWhile q = l₁ ++ l₂.takeWhile q := by
  induction l₁ with
  | nil => rfl
  | cons a rest ih =>
    simp only [List.all_cons, Bool.and_eq_true] at h
    simp [List.takeWhile_cons_of_pos h.1, ih h.2]

theorem dropWhile_append_all (q : Char → Bool) (l₁ l₂ : List Char)
    (h : l₁.all q = true) :
    (l₁ ++ l₂).dropWhile q = l₂.dropWhile q := by
  induction l₁ with
  | nil => rfl
  | cons a rest ih =>
    simp only [List.all_cons, Bool.and_eq_true] at h
    simp [List.dropWhile_cons_of_pos h.1, ih h.2]

/-- `urlsplit`'s preprocessing is the identity on a URL of the shape the
builder emits: the head `https` byte is no control character or space (so
the left strip removes nothing) and no tab/CR/LF occurs anywhere (so the
filter removes nothing). -/
theorem preprocessUrl_append_https (X : List Char)
    (hX : X.all (fun c => !removedUrlByte c) = true) :
    preprocessUrl (['h', 't', 't', 'p', 's', ':', '/', '/'] ++ X)
      = ['h', 't', 't', 'p', 's', ':', '/', '/'] ++ X := by
  unfold preprocessUrl
  rw [show (['h', 't', 't', 'p', 's', ':', '/', '/'] ++ X : List Char)
      = 'h' :: (['t', 't', 'p', 's', ':', '/', '/'] ++ X) from rfl]
  rw [List.dropWhile_cons_of_neg (by decide)]
  rw [List.filter_eq_self.mpr]
  intro a ha
  rcases List.mem_cons.mp ha with rfl | ha
  · decide
  · rcases List.mem_append.mp ha with h | h
    · have hconst : (['t', 't', 'p', 's', ':', '/', '/'] : List Char).all
          (fun c => !removedUrlByte c) = true := by decide
      exact List.all_eq_true.mp hconst a h
    · exact List.all_eq_true.mp hX a h

theorem all_implies {p q : Char → Bool} (hpq : ∀ c, p c = true → q c = true)
    (l : List Char) (h : l.all p = true) : l.all q = true := by
  rw [List.all_eq_true] at h ⊢
  exact fun x hx => hpq x (h x hx)

theorem hostChar_clean (c : Char) (h : hostChar c = true) :
    (!removedUrlByte c) = true := by
  simp only [hostChar, plainChar, Bool.and_eq_true] at h
  exact h.1.1.1.1.1.1.2

theorem pathSafeChar_clean (c : Char) (h : pathSafeChar c = true) :
    (!removedUrlByte c) = true := by
  simp only [pathSafeChar, Bool.and_eq_true] at h
  exact h.1.1

theorem queryChar_clean (c : Char) (h : queryChar c = true) :
    (!removedUrlByte c) = true := by
  simp only [queryChar, Bool.and_eq_true] at h
  exact h.1

theorem hostChar_not_netDelim (c : Char) (h : hostChar c = true) :
    (!netDelim c) = true := by
  simp only [hostChar, Bool.and_eq_true, decide_eq_true_eq] at h
  simp only [netDelim, Bool.not_eq_true', Bool.or_eq_false_iff, decide_eq_false_iff_not]
  exact ⟨⟨h.1.1.1.1.2, h.1.1.1.2⟩, h.1.1.2⟩

theorem pathSafeChar_not_hash (c : Char) (h : pathSafeChar c = true) :
    (!decide (c = '#')) = true := by
  simp only [pathSafeChar, Bool.and_eq_true, decide_eq_true_eq] at h
  simp only [Bool.not_eq_true', decide_eq_false_iff_not]
  exact h.2

theorem pathSafeChar_not_qmark (c : Char) (h : pathSafeChar c = true) :
    (!decide (c = '?')) = true := by
  simp only [pathSafeChar, Bool.and_eq_true, decide_eq_true_eq] at h
  simp only [Bool.not_eq_true', decide_eq_false_iff_not]
  exact h.1.2

theorem queryChar_not_hash (c : Char) (h : queryChar c = true) :
    (!decide (c = '#')) = true := by
  simp only [queryChar, Bool.and_eq_true, decide_eq_true_eq] at h
  simp only [Bool.not_eq_true', decide_eq_false_iff_not]
  exact h.2

theorem splitScheme_https (X : List Char) :
    splitScheme (['h', 't', 't', 'p', 's', ':', '/', '/'] ++ X)
      = (['h', 't', 't', 'p', 's'], '/' :: '/' :: X) := by
  have h := splitAtFirst_append (fun c => c = ':') ['h', 't', 't', 'p', 's'] ':'
    ('/' :: '/' :: X) (by decide) (by decide)
  unfold splitScheme
  rw [show (['h', 't', 't', 'p', 's', ':', '/', '/'] ++ X : List Char)
      = ['h', 't', 't', 'p', 's'] ++ ':' :: ('/' :: '/' :: X) from rfl]
  rw [h]
  rfl

theorem splitNetloc_slashes (Y : List Char) :
    splitNetloc ('/' :: '/' :: Y)
      = (Y.takeWhile (fun c => !netDelim c), Y.dropWhile (fun c => !netDelim c)) := rfl

/-- The reparse's params step is the identity on a path whose last segment
has no `;` (as `urlparse` always produces, since `_splitparams` strips the
last segment's `;`-suffix): whether or not `;` occurs earlier in the path,
no params are split off. -/
theorem params_split_id (P : List Char) (hPt : ∃ Pt, P = '/' :: Pt)
    (hPseg : (lastSeg P).all (fun c => !decide (c = ';')) = true) :
    (if (⟨['h', 't', 't', 'p', 's']⟩ : String) ∈ uses_params ∧ (';' : Char) ∈ P
      then splitParams P else (P, [])) = (P, []) := by
  by_cases hsemi : (';' : Char) ∈ P
  · rw [if_pos ⟨by decide, hsemi⟩]
    obtain ⟨Pt, hP⟩ := hPt
    unfold splitParams
    rw [if_pos (by rw [hP]; exact List.mem_cons_self _ _)]
    rw [splitAtFirst_of_all_not _ _ hPseg]
  · exact if_neg (fun hand => hsemi hand.2)

/-- A URL of the shape `https://` + host + path + query-part — with a plain
bracket-free host, a path starting `/` free of `?` and `#` whose last
segment has no `;`, and either no query part or `?` + a `#`-free query —
parses back into exactly those components. -/
theorem urlparse_parts (H P Q : List Char)
    (hH : H.all hostChar = true)
    (hP : ∃ Pt, P = '/' :: Pt)
    (hP2 : P.all pathSafeChar = true)
    (hPseg : (lastSeg P).all (fun c => !decide (c = ';')) = true)
    (hQ : Q = [] ∨ ∃ Qd, Q = '?' :: Qd ∧ Qd.all queryChar = true) :
    urlparse ⟨['h', 't', 't', 'p', 's', ':', '/', '/'] ++ (H ++ (P ++ Q))⟩ =
      { scheme := "https", netloc := ⟨H⟩, path := ⟨P⟩, params := "",
        query := ⟨Q.tail⟩, fragment := "" } := by
  obtain ⟨Pt, hPt⟩ := hP
  have hclean : (H ++ (P ++ Q)).all (fun c => !removedUrlByte c) = true := by
    simp only [List.all_append, Bool.and_eq_true]
    refine ⟨all_implies hostChar_clean H hH, all_implies pathSafeChar_clean P hP2, ?_⟩
    rcases hQ with hq | ⟨Qd, hq, hqall⟩
    · simp [hq]
    · rw [hq]
      simp only [List.all_cons, Bool.and_eq_true]
      exact ⟨by decide, all_implies queryChar_clean Qd hqall⟩
  have hnohashPQ : (P ++ Q).all (fun c => !decide (c = '#')) = true := by
    simp only [List.all_append, Bool.and_eq_true]
    refine ⟨all_implies pathSafeChar_not_hash P hP2, ?_⟩
    rcases hQ with hq | ⟨Qd, hq, hqall⟩
    · simp [hq]
    · rw [hq]
      simp only [List.all_cons, Bool.and_eq_true]
      exact ⟨by decide, all_implies queryChar_not_hash Qd hqall⟩
  have hnetloc : (H ++ (P ++ Q)).takeWhile (fun c => !netDelim c) = H := by
    rw [takeWhile_append_all _ _ _ (all_implies hostChar_not_netDelim H hH), hPt]
    rw [List.cons_append, List.takeWhile_cons_of_neg (by decide), List.append_nil]
  have hrest : (H ++ (P ++ Q)).dropWhile (fun c => !netDelim c) = P ++ Q := by
    rw [dropWhile_append_all _ _ _ (all_implies hostChar_not_netDelim H hH), hPt]
    rw [List.cons_append, List.dropWhile_cons_of_neg (by decide)]
  have hfrag : splitFragment (P ++ Q) = (P ++ Q, []) := by
    unfold splitFragment
    rw [splitAtFirst_of_all_not _ _ hnohashPQ]
  simp only [urlparse]
  rw [preprocessUrl_append_https _ hclean]
  simp only [splitScheme_https, splitNetloc_slashes, hnetloc, hrest, hfrag]
  rcases hQ with hq | ⟨Qd, hq, hqall⟩
  · subst hq
    have hquery : splitQuery (P ++ []) = (P, []) := by
      rw [List.append_nil]
      unfold splitQuery
      rw [splitAtFirst_of_all_not _ _ (all_implies pathSafeChar_not_qmark P hP2)]
    simp only [hquery]
    rw [params_split_id P ⟨Pt, hPt⟩ hPseg]
    rfl
  · subst hq
    have hquery : splitQuery (P ++ '?' :: Qd) = (P, Qd) := by
      unfold splitQuery
      rw [splitAtFirst_append _ _ _ _ (all_implies pathSafeChar_not_qmark P hP2) (by decide)]
    simp only [hquery]
    rw [params_split_id P ⟨Pt, hPt⟩ hPseg]
    rfl

theorem urlparse_rebuilt (host path query : String)
    (hH : host.data.all hostChar = true)
    (hP1 : path.data.head? = some '/')
    (hP2 : path.data.all pathSafeChar = true)
    (hPseg : (lastSeg path.data).all (fun c => !decide (c = ';')) = true)
    (hQ : query.data.all queryChar = true) :
    urlparse ("https://" ++ host ++ path ++ (if query = "" then "" else "?" ++ query)) =
      { scheme := "https", netloc := host, path := path, params := "",
        query := query, fragment := "" } := by
  have hPex : ∃ Pt, path.data = '/' :: Pt := by
    cases hpd : path.data with
    | nil => rw [hpd] at hP1; exact absurd hP1 (by simp)
    | cons c t =>
      rw [hpd] at hP1
      simp only [List.head?_cons, Option.some.injEq] at hP1
      exact ⟨t, by rw [hP1]⟩
  by_cases hqe : query = ""
  · subst hqe
    rw [if_pos rfl]
    have harg : ("https://" ++ host ++ path ++ "")
        = (⟨['h', 't', 't', 'p', 's', ':', '/', '/']
            ++ (host.data ++ (path.data ++ ([] : List Char)))⟩ : String) := by
      apply String.ext
      simp [String.data_append, List.append_assoc]
    rw [harg, urlparse_parts host.data path.data [] hH hPex hP2 hPseg (Or.inl rfl)]
    rfl
  · rw [if_neg hqe]
    have harg : ("https://" ++ host ++ path ++ ("?" ++ query))
        = (⟨['h', 't', 't', 'p', 's', ':', '/', '/']
            ++ (host.data ++ (path.data ++ ('?' :: query.data)))⟩ : String) := by
      apply String.ext
      simp [String.data_append, List.append_assoc]
    rw [harg, urlparse_parts host.data path.data ('?' :: query.data) hH hPex hP2 hPseg
      (Or.inr ⟨query.data, rfl, hQ⟩)]
    rfl

/-- C8 counterexample, exhibiting two failures of exact path preservation.
First, for the live URL `https://example.com` (whose parsed path is the
empty string) the derived staging URL gets path `/`. Second, for the live
URL `https://h/a;p` — whose text after the host is `/a;p`, parsed as path
`/a` with params `p` — the derived staging URL is `https://s/a`: the
params segment `;p` is dropped, so the portion after the host is not
preserved either. -/
theorem build_staging_url_not_exact :
    build_staging_url "https://example.com" "stg.webflow.io" = "https://stg.webflow.io/"
    ∧ (urlparse (ensure_https "https://example.com")).path = ""
    ∧ (urlparse (build_staging_url "https://example.com" "stg.webflow.io")).path ≠
        (urlparse (ensure_https "https://example.com")).path
    ∧ build_staging_url "https://h/a;p" "s" = "https://s/a"
    ∧ (urlparse (ensure_https "https://h/a;p")).path = "/a"
    ∧ (urlparse (ensure_https "https://h/a;p")).params = "p"
    ∧ (urlparse (build_staging_url "https://h/a;p" "s")).params = "" := by
  refine ⟨by decide, by decide, by decide, by decide, by decide, by decide, by decide⟩

/-- C8 (amended): consider any live URL on which CPython's `urlparse` does
not raise — no square brackets anywhere and ASCII netlocs under both
parses the code performs, the domain on which the `urlparse` model is
faithful; the first two hypotheses enforce this and are otherwise unused —
and any staging host trimming to printable ASCII free of `/`, `?`, `#` and
brackets. Provided the live URL's parsed path is empty or `/`-led, free of
`?`/`#` with a `;`-free last segment, and its parsed query is `#`-free
(parsed paths and queries always satisfy these character conditions), the
derived staging URL parses back with scheme `https`, the trimmed staging
host (whitespace stripped, trailing slashes removed) in place of the
original host, the live URL's parsed path unchanged — except that an empty
path becomes `/`; any params segment of the live URL was already dropped
by the parse, per the counterexample — and the live URL's query string
exactly. -/
theorem build_staging_url_components (live_url staging_base_host : String)
    (_hlive_brackets : ('[' : Char) ∉ live_url.data ∧ (']' : Char) ∉ live_url.data)
    (_hlive_ascii : (urlparse live_url).netloc.data.all (fun c => c.toNat < 128) = true
      ∧ (urlparse (ensure_https live_url)).netloc.data.all (fun c => c.toNat < 128) = true)
    (hH : (pyRstripSlashes (pyStrip staging_base_host)).data.all hostChar = true)
    (hP : (urlparse (ensure_https live_url)).path = "" ∨
      ((urlparse (ensure_https live_url)).path.data.head? = some '/' ∧
       (urlparse (ensure_https live_url)).path.data.all pathSafeChar = true ∧
       (lastSeg (urlparse (ensure_https live_url)).path.data).all
         (fun c => !decide (c = ';')) = true))
    (hQ : (urlparse (ensure_https live_url)).query.data.all queryChar = true) :
    urlparse (build_staging_url live_url staging_base_host) =
      { scheme := "https",
        netloc := pyRstripSlashes (pyStrip staging_base_host),
        path := if (urlparse (ensure_https live_url)).path = "" then "/"
          else (urlparse (ensure_https live_url)).path,
        params := "",
        query := (urlparse (ensure_https live_url)).query,
        fragment := "" } := by
  have hP1 : (if (urlparse (ensure_https live_url)).path = "" then "/"
      else (urlparse (ensure_https live_url)).path).data.head? = some '/' := by
    by_cases hpe : (urlparse (ensure_https live_url)).path = ""
    · rw [if_pos hpe]; rfl
    · rw [if_neg hpe]
      rcases hP with hp | hp
      · exact absurd hp hpe
      · exact hp.1
  have hP2 : (if (urlparse (ensure_https live_url)).path = "" then "/"
      else (urlparse (ensure_https live_url)).path).data.all pathSafeChar = true := by
    by_cases hpe : (urlparse (ensure_https live_url)).path = ""
    · rw [if_pos hpe]; decide
    · rw [if_neg hpe]
      rcases hP with hp | hp
      · exact absurd hp hpe
      · exact hp.2.1
  have hPseg : (lastSeg (if (urlparse (ensure_https live_url)).path = "" then "/"
      else (urlparse (ensure_https live_url)).path).data).all
        (fun c => !decide (c = ';')) = true := by
    by_cases hpe : (urlparse (ensure_https live_url)).path = ""
    · rw [if_pos hpe]; decide
    · rw [if_neg hpe]
      rcases hP with hp | hp
      · exact absurd hp hpe
      · exact hp.2.2
  exact urlparse_rebuilt (pyRstripSlashes (pyStrip staging_base_host))
    (if (urlparse (ensure_https live_url)).path = "" then "/"
      else (urlparse (ensure_https live_url)).path)
    (urlparse (ensure_https live_url)).query hH hP1 hP2 hPseg hQ

/-- Witness for the amended C8 at a live URL with path and query and a
staging host needing trimming. -/
theorem build_staging_url_components_witness :
    urlparse (build_staging_url "http://www.example.com/about?x=1" " stg.webflow.io/ ") =
      { scheme := "https", netloc := "stg.webflow.io", path := "/about",
        params := "", query := "x=1", fragment := "" } := by
  have h := build_staging_url_components "http://www.example.com/about?x=1"
    " stg.webflow.io/ " ⟨by decide, by decide⟩ ⟨by decide, by decide⟩ (by decide)
    (Or.inr ⟨by decide, by decide, by decide⟩) (by decide)
  exact h.trans (by decide)

/-- `is_ok` from `redirect.py` lines 236-237. -/
def is_ok (status_code : Option Int) : Bool :=
  match status_code with
  | none => false
  | some c => decide (200 ≤ c) && decide (c < 400)

/-- One generated row of `generate_rows_from_sitemap` (lines 284-298), given
the live URL, its staging URL and the two precheck status codes. -/
def generate_row (live staging : String) (live_code staging_code : Option Int) : Row :=
  [("Live Site URL", live),
   ("Theoretical Staging Link", staging),
   ("Page Exists?", if is_ok staging_code then "Yes" else "No"),
   ("URL Matches", if is_ok live_code && is_ok staging_code then "Yes"
     else "Page Does Not Exist"),
   ("Redirect URL", ""),
   ("Scope", ""),
   ("Status", "")]

/-- The row-building loop of `generate_rows_from_sitemap` (lines 255-299):
one row per live URL, with the staging URL derived by `build_staging_url`.
The status arrays start as `[None] * n` and are filled by the precheck
thread pool only when `precheck` is on; the oracles `live_status` and
`staging_status` supply the codes the precheck collected per index. -/
def generate_rows_from_sitemap (live_urls : List String) (staging_base_host : String)
    (precheck : Bool) (live_status staging_status : Nat → Option Int) : List Row :=
  (List.range live_urls.length).map (fun i =>
    let live := live_urls.getD i ""
    generate_row live (build_staging_url live staging_base_host)
      (if precheck then live_status i else none)
      (if precheck then staging_status i else none))

theorem generate_row_fields (live staging : String) (lc sc : Option Int) :
    Row.getD (generate_row live staging lc sc) "Page Exists?"
        = (if is_ok sc then "Yes" else "No")
    ∧ Row.getD (generate_row live staging lc sc) "URL Matches"
        = (if is_ok lc && is_ok sc then "Yes" else "Page Does Not Exist") := by
  constructor
  · simp [generate_row, Row.getD, Row.get, List.find?]
  · simp [generate_row, Row.getD, Row.get, List.find?]

/-- C10: in every generated row, `Page Exists?` is "Yes" exactly when the
staging probe resolved with a status in `[200, 400)` (and "No" otherwise),
and `URL Matches` is "Yes" exactly when both the live and the staging
probes resolved with statuses in `[200, 400)` (and the literal
"Page Does Not Exist" otherwise); with precheck disabled every status is
absent, so every row gets "No" and "Page Does Not Exist". -/
theorem generation_seeding (live_urls : List String) (staging_base_host : String)
    (precheck : Bool) (live_status staging_status : Nat → Option Int) (i : Nat)
    (hi : i < (generate_rows_from_sitemap live_urls staging_base_host precheck
      live_status staging_status).length) :
    (Row.getD ((generate_rows_from_sitemap live_urls staging_base_host precheck
        live_status staging_status).get ⟨i, hi⟩) "Page Exists?" = "Yes"
      ↔ is_ok (if precheck then staging_status i else none) = true)
    ∧ (Row.getD ((generate_rows_from_sitemap live_urls staging_base_host precheck
        live_status staging_status).get ⟨i, hi⟩) "Page Exists?" = "Yes"
      ∨ Row.getD ((generate_rows_from_sitemap live_urls staging_base_host precheck
        live_status staging_status).get ⟨i, hi⟩) "Page Exists?" = "No")
    ∧ (Row.getD ((generate_rows_from_sitemap live_urls staging_base_host precheck
        live_status staging_status).get ⟨i, hi⟩) "URL Matches" = "Yes"
      ↔ (is_ok (if precheck then live_status i else none) = true
         ∧ is_ok (if precheck then staging_status i else none) = true))
    ∧ (Row.getD ((generate_rows_from_sitemap live_urls staging_base_host precheck
        live_status staging_status).get ⟨i, hi⟩) "URL Matches" = "Yes"
      ∨ Row.getD ((generate_rows_from_sitemap live_urls staging_base_host precheck
        live_status staging_status).get ⟨i, hi⟩) "URL Matches" = "Page Does Not Exist")
    ∧ (precheck = false →
        Row.getD ((generate_rows_from_sitemap live_urls staging_base_host precheck
          live_status staging_status).get ⟨i, hi⟩) "Page Exists?" = "No"
        ∧ Row.getD ((generate_rows_from_sitemap live_urls staging_base_host precheck
          live_status staging_status).get ⟨i, hi⟩) "URL Matches" = "Page Does Not Exist") := by
  have hrow : (generate_rows_from_sitemap live_urls staging_base_host precheck
      live_status staging_status).get ⟨i, hi⟩
      = generate_row (live_urls.getD i "")
          (build_staging_url (live_urls.getD i "") staging_base_host)
          (if precheck then live_status i else none)
          (if precheck then staging_status i else none) := by
    simp [generate_rows_from_sitemap, List.get_eq_getElem]
  rw [hrow]
  obtain ⟨hpe, hum⟩ := generate_row_fields (live_urls.getD i "")
    (build_staging_url (live_urls.getD i "") staging_base_host)
    (if precheck then live_status i else none)
    (if precheck then staging_status i else none)
  rw [hpe, hum]
  refine ⟨?_, ?_, ?_, ?_, ?_⟩
  · by_cases h : is_ok (if precheck then staging_status i else none) = true
    · simp [h]
    · simp [h]
  · by_cases h : is_ok (if precheck then staging_status i else none) = true
    · simp [h]
    · simp [h]
  · by_cases hl : is_ok (if precheck then live_status i else none) = true
    · by_cases hs : is_ok (if precheck then staging_status i else none) = true
      · simp [hl, hs]
      · simp [hl, hs]
    · by_cases hs : is_ok (if precheck then staging_status i else none) = true
      · simp [hl, hs]
      · simp [hl, hs]
  · by_cases hl : is_ok (if precheck then live_status i else none) = true
    · by_cases hs : is_ok (if precheck then staging_status i else none) = true
      · simp [hl, hs]
      · simp [hl, hs]
    · simp [hl]
  · intro hpre
    subst hpre
    simp [is_ok]

/-- Witness for C10 at a one-URL sitemap with both probes resolving 200. -/
theorem generation_seeding_witness :
    Row.getD ((generate_rows_from_sitemap ["https://a.example/x"] "s.io" true
        (fun _ => some 200) (fun _ => some 200)).get ⟨0, by decide⟩) "Page Exists?"
      = "Yes" := by
  have h := generation_seeding ["https://a.example/x"] "s.io" true
    (fun _ => some 200) (fun _ => some 200) 0 (by decide)
  exact h.1.mpr (by decide)

end Redirect
